import Mathlib

/-!
Verification of the Aadhaar data-pipeline scoring and aggregation code
(`lib/data_pipeline.py`, `lib/ml_models.py`).

The tabular pandas code is shallowly embedded: a DataFrame column becomes a
Lean list, a numeric cell becomes `Option ℚ` (with `none` playing the role of
NaN/null, since pandas arithmetic propagates NaN and `fillna` replaces it),
and float arithmetic is modelled exactly over `ℚ` (all the constants involved,
such as the `1e-6` epsilon guards, are exactly representable).  Each Python
function of interest keeps its source name.
-/

namespace UIDAI

/-- Maximum of a list of rationals, `0` on the empty list.  This models the
pandas `Series.max()` of a non-empty column (the empty default is never used
on the paths where the value matters, since pandas returns NaN there and the
surrounding code only consumes the max of the values that are present). -/
def qmax : List ℚ → ℚ
  | [] => 0
  | x :: xs => xs.foldl max x

/-- Minimum of a list of rationals, `0` on the empty list (see `qmax`). -/
def qmin : List ℚ → ℚ
  | [] => 0
  | x :: xs => xs.foldl min x

/-- The values of a column that are present (non-null); models pandas
skip-NaN semantics of `max/min/sum`. -/
def presentVals (l : List (Option ℚ)) : List ℚ := l.filterMap id

/-!
## Scoring engine: `AadhaarDataPipeline._calculate_migration_risk`
(`data_pipeline.py`, lines 180-186)

Source:
```
update_rate = df['Update_Rate'].fillna(0)
risk_score = ((update_rate - update_rate.min()) /
              (update_rate.max() - update_rate.min() + 1e-6) * 100)
return risk_score.fillna(50)
```
The trailing `fillna(50)` of the source is the identity map here: after
`fillna(0)` the rate column contains no NaN, and the denominator
`max - min + 1e-6` is strictly positive on a non-empty batch (and on an empty
batch the result has no rows), so `risk_score` never contains NaN.  The
embedding therefore omits it; nothing else is simplified.
-/

/-- `_calculate_migration_risk`: null-fill the Update_Rate column with 0, then
min-max scale it with the `1e-6` denominator guard and multiply by 100. -/
def migRisk (rates : List (Option ℚ)) : List ℚ :=
  let f := rates.map (fun v => v.getD 0)
  f.map (fun r => (r - qmin f) / (qmax f - qmin f + 1 / 1000000) * 100)

/-!
## Scoring engine: `VulnerabilityAnalyzer` (`ml_models.py`, lines 96-163)
-/

/-- A row of the DataFrame handed to `calculate_vulnerability_score`.  Each
field is the row's cell in the corresponding source column; whether that
column exists at all is recorded separately in `VulnDf`. -/
structure VulnRow where
  ageGroup : Option String
  enrolCount : Option ℚ
  bioUpdates : Option ℚ
  demoUpdates : Option ℚ
deriving DecidableEq

/-- The DataFrame for `calculate_vulnerability_score`: presence flags for the
columns the source tests with `'...' in df.columns`, plus the rows. -/
structure VulnDf where
  hasAgeGroup : Bool
  hasState : Bool
  hasEnrolCount : Bool
  hasBioUpdates : Bool
  hasDemoUpdates : Bool
  rows : List VulnRow
deriving DecidableEq

/-- `VulnerabilityAnalyzer._age_vulnerability_score`: categorical lookup with
default `0.5`; a NaN cell (modelled `none`) also takes the default, exactly as
`dict.get` does on the float NaN key. -/
def age_vulnerability_score (ag : Option String) : ℚ :=
  match ag with
  | some "Child (0-5)" => 1
  | some "Child (6-17)" => 9 / 10
  | some "Youth (18-25)" => 3 / 10
  | some "Adult (26-40)" => 1 / 5
  | some "Senior (41-60)" => 3 / 10
  | some "Elderly (60+)" => 4 / 5
  | _ => 1 / 2

/-- `VulnerabilityAnalyzer._geographic_vulnerability` applied to one cell `x`
of the `Enrolment_Count` column `col`:
`(max - x) / (max - min + 1e-6)`, then `fillna(0.5)` (a null cell normalizes
to NaN, which the fill replaces by `0.5`).  `max`/`min` skip nulls. -/
def geo_vulnerability (col : List (Option ℚ)) (x : Option ℚ) : ℚ :=
  match x with
  | none => 1 / 2
  | some v => (qmax (presentVals col) - v) /
      (qmax (presentVals col) - qmin (presentVals col) + 1 / 1000000)

/-- `VulnerabilityAnalyzer._biometric_vulnerability` applied to one cell:
`1 - x / (max + 1e-6)`, then `fillna(0.5)`. -/
def bio_vulnerability (col : List (Option ℚ)) (x : Option ℚ) : ℚ :=
  match x with
  | none => 1 / 2
  | some v => 1 - v / (qmax (presentVals col) + 1 / 1000000)

/-- `VulnerabilityAnalyzer._migration_vulnerability` applied to one cell:
`x / (max + 1e-6)`, then `fillna(0.5)`. -/
def mig_vulnerability (col : List (Option ℚ)) (x : Option ℚ) : ℚ :=
  match x with
  | none => 1 / 2
  | some v => v / (qmax (presentVals col) + 1 / 1000000)

/-- `VulnerabilityAnalyzer.calculate_vulnerability_score`: start from the zero
series and add each weighted sub-score whose guarding columns are present
(`Age_Group`; `State` and `Enrolment_Count`; `Biometric_Updates`;
`Demographic_Updates`), with weights 0.4, 0.3, 0.2, 0.1. -/
def calculate_vulnerability_score (df : VulnDf) : List ℚ :=
  df.rows.map (fun r =>
    (if df.hasAgeGroup then age_vulnerability_score r.ageGroup * (2 / 5) else 0) +
    (if df.hasState && df.hasEnrolCount then
        geo_vulnerability (df.rows.map (fun q => q.enrolCount)) r.enrolCount * (3 / 10)
      else 0) +
    (if df.hasBioUpdates then
        bio_vulnerability (df.rows.map (fun q => q.bioUpdates)) r.bioUpdates * (1 / 5)
      else 0) +
    (if df.hasDemoUpdates then
        mig_vulnerability (df.rows.map (fun q => q.demoUpdates)) r.demoUpdates * (1 / 10)
      else 0))

/-!
## Anomaly flagging: `AadhaarDataPipeline.identify_anomalies`
(`data_pipeline.py`, lines 239-248)

Source:
```
z_scores = np.abs(stats.zscore(df[column].fillna(0)))
anomalies = df[z_scores > threshold]
```
`stats.zscore` uses the population mean and standard deviation (ddof = 0).
The comparison `|x - mean| / std > t` is encoded square-root-free over ℚ as
`(x - mean)^2 > t^2 * var`, which is equivalent for every threshold `t ≥ 0`
(the thresholds the pipeline uses are 2.5 and 3.0); when the column has zero
variance scipy produces NaN z-scores and the comparison selects no rows, which
agrees with `(x - mean)^2 = 0 > 0 = t^2 * var` being false.  The rows of the
single-column frame are represented by their values; the boolean-mask row
selection `df[z_scores > threshold]` is the zip-with-mask selection below. -/

/-- Population mean of a column (as `stats.zscore` uses). -/
def zMean (xs : List ℚ) : ℚ := xs.sum / (xs.length : ℚ)

/-- Population variance of a column (ddof = 0, as `stats.zscore` uses). -/
def zVar (xs : List ℚ) : ℚ :=
  (xs.map (fun x => (x - zMean xs) * (x - zMean xs))).sum / (xs.length : ℚ)

/-- Whether `|zscore x| > t`, encoded square-root-free (see above). -/
def zFlag (xs : List ℚ) (t : ℚ) (x : ℚ) : Bool :=
  decide ((x - zMean xs) * (x - zMean xs) > t * t * zVar xs)

/-- `identify_anomalies`: null-fill the column with 0, compute the z-score
mask, and select the rows where the mask holds. -/
def identify_anomalies (col : List (Option ℚ)) (t : ℚ) : List ℚ :=
  let f := col.map (fun v => v.getD 0)
  (f.zip (f.map (zFlag f t))).filterMap (fun p => if p.2 then some p.1 else none)

/-!
## Aggregation: `calculate_biometric_quality` and
`aggregate_by_state_district` (`data_pipeline.py`, lines 142-150, 188-213)

A pandas `groupby` produces one group per distinct non-null key.  The source
additionally sorts the groups by key, which no claim observes; the embedding
lists the groups in order of first occurrence instead.
-/

/-- Keep the first occurrence of each element of a list (accumulator form). -/
def dedupAux {α : Type} [DecidableEq α] (seen : List α) : List α → List α
  | [] => []
  | x :: xs => if x ∈ seen then dedupAux seen xs else x :: dedupAux (x :: seen) xs

/-- Keep the first occurrence of each element of a list. -/
def dedupFirst {α : Type} [DecidableEq α] (l : List α) : List α := dedupAux [] l

/-- A row of the biometric dataset: the `State` key and the two aggregated
columns (`Update_Count`, summed and averaged skipping nulls, and `Age_Group`,
counted — pandas `count` counts the non-null cells). -/
structure BioRow where
  state : Option String
  updateCount : Option ℚ
  ageGroup : Option String
deriving DecidableEq

/-- One row of the `biometric_health` frame built by
`calculate_biometric_quality`: `State`, `Total_Updates`, `Avg_Updates`
(`none` models the NaN mean of an empty set), `Individuals_Updated`, and
`Biometric_Coverage`. -/
structure BioHealth where
  state : String
  total : ℚ
  avg : Option ℚ
  individuals : ℕ
  coverage : ℚ
deriving DecidableEq

/-- The aggregate row of one `State` group in `calculate_biometric_quality`:
`Total_Updates = sum`, `Avg_Updates = mean`, `Individuals_Updated = count` of
`Age_Group`, and `Biometric_Coverage = Total / (Individuals + 1e-6) * 100`. -/
def bioGroup (rows : List BioRow) (s : String) : BioHealth :=
  { state := s
  , total := ((rows.filter (fun r => r.state == some s)).filterMap
      (fun r => r.updateCount)).sum
  , avg := if ((rows.filter (fun r => r.state == some s)).filterMap
        (fun r => r.updateCount)).length = 0 then none
      else some (((rows.filter (fun r => r.state == some s)).filterMap
          (fun r => r.updateCount)).sum /
        (((rows.filter (fun r => r.state == some s)).filterMap
          (fun r => r.updateCount)).length : ℚ))
  , individuals := ((rows.filter (fun r => r.state == some s)).filterMap
      (fun r => r.ageGroup)).length
  , coverage := ((rows.filter (fun r => r.state == some s)).filterMap
        (fun r => r.updateCount)).sum /
      ((((rows.filter (fun r => r.state == some s)).filterMap
        (fun r => r.ageGroup)).length : ℚ) + 1 / 1000000) * 100 }

/-- `AadhaarDataPipeline.calculate_biometric_quality`: when the `State`
column is present, group by `State` and aggregate; otherwise the result stays
the empty frame created at the top of the function. -/
def calculate_biometric_quality (hasState : Bool) (rows : List BioRow) :
    List BioHealth :=
  if hasState then
    (dedupFirst (rows.filterMap (fun r => r.state))).map (bioGroup rows)
  else []

/-- A row of a frame handed to `aggregate_by_state_district`: the two group
keys (null cells allowed — pandas `groupby` drops rows whose key is null) and
the value column that gets summed.  The value column named by the caller is
taken to exist, as the source presupposes (it would raise a `KeyError`
otherwise, a path outside the claims). -/
structure AggRow where
  state : Option String
  district : Option String
  value : Option ℚ
deriving DecidableEq

/-- A frame for `aggregate_by_state_district`: presence flags for the two key
columns the source checks with `'State' not in df.columns`, plus the rows. -/
structure AggTable where
  hasState : Bool
  hasDistrict : Bool
  rows : List AggRow
deriving DecidableEq

/-- The non-null (State, District) keys of the rows, in order. -/
def keysOf (rows : List AggRow) : List (String × String) :=
  rows.filterMap (fun r => match r.state, r.district with
    | some s, some d => some (s, d)
    | _, _ => none)

/-- Sum of the value column over one group (pandas `sum` skips nulls; an
all-null group sums to 0). -/
def groupSum (rows : List AggRow) (k : String × String) : ℚ :=
  ((rows.filter (fun r =>
    r.state == some k.1 && r.district == some k.2)).filterMap
      (fun r => r.value)).sum

/-- `AadhaarDataPipeline.aggregate_by_state_district`: if either key column
is absent, return the input unchanged (the logged warning is not modelled);
otherwise produce one row per distinct (State, District) group with the value
column summed. -/
def aggregate_by_state_district (t : AggTable) : AggTable :=
  if t.hasState && t.hasDistrict then
    { hasState := true, hasDistrict := true
    , rows := (dedupFirst (keysOf t.rows)).map (fun k =>
        { state := some k.1, district := some k.2
        , value := some (groupSum t.rows k) }) }
  else t

/-!
## Anomaly/Cluster adapter boundary (`ml_models.py`, lines 30-56 and 256-281)

The spec treats the scaler + external model inside each `try` block as one
pluggable external capability; the embedding takes that capability as a
function argument returning `Except` (a thrown exception is `Except.error`).
Each adapter null-fills the feature matrix with 0 before handing it over,
exactly as `X.fillna(0)` does in both sources.
-/

/-- Null-fill a feature matrix, as `X.fillna(0)`. -/
def fillMatrix (x : List (List (Option ℚ))) : List (List ℚ) :=
  x.map (fun row => row.map (fun v => v.getD 0))

/-- `AnomalyDetector.detect_isolation_forest`: run the external scaler+model;
on any failure return `np.ones(len(X))`, the all-normal labelling (the model
encodes -1 = anomaly, 1 = normal). -/
def detect_isolation_forest
    (model : List (List ℚ) → Except String (List ℤ))
    (x : List (List (Option ℚ))) : List ℤ :=
  match model (fillMatrix x) with
  | Except.ok p => p
  | Except.error _ => List.replicate x.length 1

/-- The frame handed to `PopulationClusterer.cluster_regions`: its feature
rows and its `Cluster` column (`none` when that column does not exist, as in
the input frame). -/
structure RegionTable where
  rows : List (List (Option ℚ))
  cluster : Option (List ℕ)
deriving DecidableEq

/-- `PopulationClusterer.cluster_regions`: run the external scaler+K-means;
on success return a copy of the frame with the `Cluster` column attached; on
any failure return the input frame unchanged (no `Cluster` column added). -/
def cluster_regions (model : List (List ℚ) → Except String (List ℕ))
    (df : RegionTable) : RegionTable :=
  match model (fillMatrix df.rows) with
  | Except.ok cs => { df with cluster := some cs }
  | Except.error _ => df

/-!
## Merge: `AadhaarDataPipeline.calculate_migration_indicators`
(`data_pipeline.py`, lines 152-178)

The function left-joins the enrolment and demographic frames on
(State, District, Pin Code) with suffixes `('_enrol', '_demo')` — pandas
appends a suffix exactly to the non-key columns that occur in both frames —
and builds the migration frame only when both `'Aadhaar Generated_enrol'`
and `'Update_count'` exist among the merged columns; otherwise it returns
the empty `pd.DataFrame()` created at line 167, with no rows and no columns
(modelled as `none`).  Row-wise, a left join emits each left row once per
key match, or once with a NaN right side when nothing matches; NaN then
propagates through the `Update_Rate` arithmetic.  The row types carry the
key columns and the two value columns the built frame reads. -/

/-- The join keys of the merge. -/
def mergeKeys : List String := ["State", "District", "Pin Code"]

/-- The column names of
`pd.merge(enrol, demo, on=keys, suffixes=('_enrol', '_demo'))`: the keys,
then each side's non-key columns, suffixed exactly when the name also occurs
among the other side's non-key columns. -/
def mergedColumns (ecols dcols : List String) : List String :=
  mergeKeys ++
    (ecols.filter (fun c => !(mergeKeys.contains c))).map (fun c =>
      if (dcols.filter (fun c2 => !(mergeKeys.contains c2))).contains c
        then c ++ "_enrol" else c) ++
    (dcols.filter (fun c => !(mergeKeys.contains c))).map (fun c =>
      if (ecols.filter (fun c2 => !(mergeKeys.contains c2))).contains c
        then c ++ "_demo" else c)

/-- An enrolment row: the three key columns and `Aadhaar Generated`. -/
structure ERow where
  state : String
  district : String
  pin : ℚ
  gen : Option ℚ
deriving DecidableEq

/-- A demographic row: the three key columns and `Update_count`. -/
structure DRow where
  state : String
  district : String
  pin : ℚ
  upd : Option ℚ
deriving DecidableEq

/-- A row of the migration frame: `State`, `District`, `Enrolment`,
`Updates`, `Update_Rate`, `Migration_Risk`. -/
structure MigRow where
  state : String
  district : String
  enrolment : Option ℚ
  updates : Option ℚ
  update_rate : Option ℚ
  risk : ℚ
deriving DecidableEq

/-- `Update_Rate = Updates / (Enrolment + 1) * 100`, with a null operand
propagating to a null result as NaN does in pandas. -/
def rateOf (gen upd : Option ℚ) : Option ℚ :=
  match upd, gen with
  | some u, some g => some (u / (g + 1) * 100)
  | _, _ => none

/-- The (enrolment row, matched `Update_count`) pairs of the left join. -/
def joinPairs (erows : List ERow) (drows : List DRow) :
    List (ERow × Option ℚ) :=
  erows.flatMap (fun e =>
    let ms := drows.filter (fun d =>
      d.state == e.state && d.district == e.district && d.pin == e.pin)
    if ms.isEmpty then [(e, none)] else ms.map (fun d => (e, d.upd)))

/-- `calculate_migration_indicators`: `none` models the empty frame returned
when a required column is missing after the merge; otherwise one `MigRow` per
joined pair, with the `Migration_Risk` column computed by `migRisk`
(`_calculate_migration_risk`) from the whole `Update_Rate` column. -/
def calculate_migration_indicators (ecols dcols : List String)
    (erows : List ERow) (drows : List DRow) : Option (List MigRow) :=
  if (mergedColumns ecols dcols).contains "Aadhaar Generated_enrol" &&
     (mergedColumns ecols dcols).contains "Update_count" then
    some (List.zipWith
      (fun p r =>
        { state := p.1.state, district := p.1.district, enrolment := p.1.gen
        , updates := p.2, update_rate := rateOf p.1.gen p.2, risk := r })
      (joinPairs erows drows)
      (migRisk ((joinPairs erows drows).map (fun q => rateOf q.1.gen q.2))))
  else none

/-!
## Cleaner: `clean_enrolment_data` / `clean_demographic_data` /
`clean_biometric_data` (`data_pipeline.py`, lines 58-140)

A dataset is a list of named, dtype-tagged columns of cells.  The cleaning
steps, in source order:
1. `df.fillna(method='ffill').fillna(method='bfill')`, column-wise;
2. `pd.to_datetime(df[col], errors='coerce')` on every column whose name
   contains "date" or "month" case-insensitively (the surrounding
   `try/except` never fires since `errors='coerce'` does not raise); the
   column becomes datetime-typed, numbers become timestamps, unparsable
   strings become null (NaT);
3. `df.drop_duplicates()`, keeping the first occurrence of each full row
   (pandas hashing treats equal nulls as equal);
4. for `clean_enrolment_data` only, `pd.to_numeric(df[col], errors='coerce')`
   on every column of object dtype, which turns each cell that does not parse
   as a number into null and retypes the column as numeric (the `except`
   branch is again dead because `errors='coerce'` does not raise).
`cleanData true` is `clean_enrolment_data`; `cleanData false` is
`clean_demographic_data` and `clean_biometric_data` (they have no step 4).

Date and number parsing are modelled by simple concrete parsers — a date is
"YYYY-MM" or "YYYY-MM-DD" with digit fields, a number an optionally signed
decimal literal; the claims rely only on some strings parsing and others
not. -/

/-- A cell of a column: null (NaN/NaT), numeric, text, or datetime. -/
inductive Cell where
  | null : Cell
  | num : ℚ → Cell
  | str : String → Cell
  | date : ℚ → Cell
deriving DecidableEq

/-- A pandas dtype, as far as the cleaner observes it: `object` (text),
numeric, or datetime. -/
inductive Dtype where
  | objectT : Dtype
  | floatT : Dtype
  | dateT : Dtype
deriving DecidableEq

/-- A named, typed column. -/
structure Col where
  name : String
  dtype : Dtype
  cells : List Cell
deriving DecidableEq

/-- A DataFrame, column-major. -/
abbrev Table := List Col

/-- The numeric value of a non-empty digit string. -/
def digitsVal (l : List Char) : Option ℕ :=
  if l.isEmpty then none
  else l.foldl (fun acc c =>
    match acc with
    | none => none
    | some n => if c.isDigit then some (10 * n + (c.toNat - 48)) else none)
    (some 0)

/-- Split a character list on a separator character. -/
def splitOnChar (sep : Char) : List Char → List (List Char)
  | [] => [[]]
  | c :: cs =>
    if c = sep then [] :: splitOnChar sep cs
    else match splitOnChar sep cs with
      | [] => [[c]]
      | h :: t => (c :: h) :: t

/-- Parse a date string "YYYY-MM" or "YYYY-MM-DD", encoded as the number
y*10000 + m*100 + d. -/
def parseDate (s : String) : Option ℚ :=
  match (splitOnChar '-' s.toList).map digitsVal with
  | [some y, some m] => some (((y * 10000 + m * 100 + 1 : ℕ) : ℚ))
  | [some y, some m, some d] => some (((y * 10000 + m * 100 + d : ℕ) : ℚ))
  | _ => none

/-- Parse an unsigned decimal literal. -/
def parseNumAux (l : List Char) : Option ℚ :=
  match splitOnChar '.' l with
  | [ip] => (digitsVal ip).map (fun n => (n : ℚ))
  | [ip, fp] =>
    match digitsVal ip, digitsVal fp with
    | some i, some f => some ((i : ℚ) + (f : ℚ) / ((10 : ℚ) ^ fp.length))
    | _, _ => none
  | _ => none

/-- Parse an optionally negated decimal literal. -/
def parseNum (s : String) : Option ℚ :=
  match s.toList with
  | '-' :: rest => (parseNumAux rest).map (fun q => -q)
  | l => parseNumAux l

/-- Whether a substring occurs in a character list. -/
def containsSub (pat : List Char) : List Char → Bool
  | [] => false
  | c :: cs => pat.isPrefixOf (c :: cs) || containsSub pat cs

/-- Whether a column name contains "date" or "month" case-insensitively, as
the source's date-column detection does. -/
def isDateName (name : String) : Bool :=
  containsSub "date".toList (name.toList.map Char.toLower) ||
  containsSub "month".toList (name.toList.map Char.toLower)

/-- Forward fill: replace each null by the last non-null value above it. -/
def ffillAux (carry : Option Cell) : List Cell → List Cell
  | [] => []
  | Cell.null :: cs => carry.getD Cell.null :: ffillAux carry cs
  | c :: cs => c :: ffillAux (some c) cs

/-- `fillna(method='ffill')` on one column. -/
def ffillCells (cs : List Cell) : List Cell := ffillAux none cs

/-- `fillna(method='bfill')` on one column. -/
def bfillCells (cs : List Cell) : List Cell := (ffillAux none cs.reverse).reverse

/-- Step 1 of cleaning, on one column: forward fill then backward fill. -/
def fillCol (c : Col) : Col := { c with cells := bfillCells (ffillCells c.cells) }

/-- `pd.to_datetime(cell, errors='coerce')`: nulls stay null, numbers become
timestamps, strings parse or become null, datetimes stay. -/
def toDateCell : Cell → Cell
  | Cell.null => Cell.null
  | Cell.num q => Cell.date q
  | Cell.str s =>
    match parseDate s with
    | some d => Cell.date d
    | none => Cell.null
  | Cell.date d => Cell.date d

/-- Step 2 of cleaning, on one column: convert name-matched columns to
datetime. -/
def dateConvCol (c : Col) : Col :=
  if isDateName c.name then
    { name := c.name, dtype := Dtype.dateT, cells := c.cells.map toDateCell }
  else c

/-- `pd.to_numeric(cell, errors='coerce')`: nulls stay null, numbers stay,
strings parse or become null, datetimes become their numeric timestamps. -/
def toNumericCell : Cell → Cell
  | Cell.null => Cell.null
  | Cell.num q => Cell.num q
  | Cell.str s =>
    match parseNum s with
    | some q => Cell.num q
    | none => Cell.null
  | Cell.date d => Cell.num d

/-- Step 4 of cleaning, on one column: coerce object-typed columns to
numeric. -/
def coerceCol (c : Col) : Col :=
  if c.dtype = Dtype.objectT then
    { name := c.name, dtype := Dtype.floatT, cells := c.cells.map toNumericCell }
  else c

/-- The number of rows of a table (the length of its first column; all
columns agree on a well-formed table). -/
def heightT : Table → ℕ
  | [] => 0
  | c :: _ => c.cells.length

/-- The rows of a column-major table. -/
def rowsOf (t : Table) : List (List Cell) :=
  (List.range (heightT t)).map (fun i => t.map (fun c => c.cells.getD i Cell.null))

/-- The keep-mask of `drop_duplicates()`: true exactly at the first
occurrence of each row. -/
def keepMask (seen : List (List Cell)) : List (List Cell) → List Bool
  | [] => []
  | r :: rs => (if r ∈ seen then false else true) :: keepMask (r :: seen) rs

/-- Restrict a column to the positions where the mask holds. -/
def maskFilter : List Bool → List Cell → List Cell
  | [], _ => []
  | _ :: _, [] => []
  | b :: ms, c :: cs => if b then c :: maskFilter ms cs else maskFilter ms cs

/-- Step 3 of cleaning: `drop_duplicates()` keeping first occurrences. -/
def dedupTable (t : Table) : Table :=
  t.map (fun c => { c with cells := maskFilter (keepMask [] (rowsOf t)) c.cells })

/-- The cleaner: fill, date-convert, deduplicate, and (for the enrolment
cleaner) numerically coerce the object columns. -/
def cleanData (coerce : Bool) (t : Table) : Table :=
  if coerce then
    (dedupTable ((t.map fillCol).map dateConvCol)).map coerceCol
  else dedupTable ((t.map fillCol).map dateConvCol)

/-- A table is rectangular: every column has the common height. -/
abbrev wfT (t : Table) : Prop := ∀ c ∈ t, c.cells.length = heightT t

/-- No null cell anywhere in the table. -/
abbrev noNulls (t : Table) : Prop := ∀ c ∈ t, ∀ x ∈ c.cells, x ≠ Cell.null

/-- A date-named column is datetime-typed with only date-or-null cells
(the shape every column of a cleaned table has). -/
def dateOK (c : Col) : Prop :=
  isDateName c.name = true →
    c.dtype = Dtype.dateT ∧ ∀ x ∈ c.cells, x = Cell.null ∨ ∃ d, x = Cell.date d

end UIDAI

namespace UIDAI

/-! ## Helper lemmas about list folds -/

theorem foldl_max_init_le (l : List ℚ) : ∀ b : ℚ, b ≤ l.foldl max b := by
  induction l with
  | nil => intro b; simp
  | cons x xs ih =>
    intro b
    exact le_trans (le_max_left b x) (ih (max b x))

theorem le_foldl_max (l : List ℚ) : ∀ b a, a ∈ l → a ≤ l.foldl max b := by
  induction l with
  | nil => intro b a h; cases h
  | cons x xs ih =>
    intro b a h
    rcases List.mem_cons.mp h with h | h
    · subst h
      exact le_trans (le_max_right b a) (foldl_max_init_le xs (max b a))
    · exact ih (max b x) a h

theorem foldl_min_le_init (l : List ℚ) : ∀ b : ℚ, l.foldl min b ≤ b := by
  induction l with
  | nil => intro b; simp
  | cons x xs ih =>
    intro b
    exact le_trans (ih (min b x)) (min_le_left b x)

theorem foldl_min_le (l : List ℚ) : ∀ b a, a ∈ l → l.foldl min b ≤ a := by
  induction l with
  | nil => intro b a h; cases h
  | cons x xs ih =>
    intro b a h
    rcases List.mem_cons.mp h with h | h
    · subst h
      exact le_trans (foldl_min_le_init xs (min b a)) (min_le_right b a)
    · exact ih (min b x) a h

theorem le_qmax (l : List ℚ) (a : ℚ) (h : a ∈ l) : a ≤ qmax l := by
  cases l with
  | nil => cases h
  | cons x xs =>
    rcases List.mem_cons.mp h with h | h
    · subst h; exact foldl_max_init_le xs a
    · exact le_foldl_max xs x a h

theorem qmin_le (l : List ℚ) (a : ℚ) (h : a ∈ l) : qmin l ≤ a := by
  cases l with
  | nil => cases h
  | cons x xs =>
    rcases List.mem_cons.mp h with h | h
    · subst h; exact foldl_min_le_init xs a
    · exact foldl_min_le xs x a h

/-! ## C1 -/

/-- C1 (amended): for every input batch, every Migration_Risk value produced by
`_calculate_migration_risk` lies in [0,100]; and when the null-filled
Update_Rate column has zero variance (max = min, including a single distinct
value), every row receives exactly 0 — not 50, and not NaN or a division
error, since the `1e-6` guard keeps the denominator positive. -/
theorem migration_risk_range_uniform_zero (rates : List (Option ℚ)) :
    (∀ x ∈ migRisk rates, 0 ≤ x ∧ x ≤ 100) ∧
    (qmax (rates.map (fun v => v.getD 0)) = qmin (rates.map (fun v => v.getD 0)) →
      ∀ x ∈ migRisk rates, x = 0) := by
  set f := rates.map (fun v => v.getD 0) with hf
  have key : ∀ x ∈ migRisk rates,
      ∃ r ∈ f, x = (r - qmin f) / (qmax f - qmin f + 1 / 1000000) * 100 := by
    intro x hx
    rcases List.mem_map.mp hx with ⟨r, hr, hxr⟩
    exact ⟨r, hr, hxr.symm⟩
  constructor
  · intro x hx
    rcases key x hx with ⟨r, hr, hxr⟩
    have h1 : qmin f ≤ r := qmin_le f r hr
    have h2 : r ≤ qmax f := le_qmax f r hr
    have hden : (0 : ℚ) < qmax f - qmin f + 1 / 1000000 := by
      have : (0 : ℚ) ≤ qmax f - qmin f := by linarith
      linarith
    constructor
    · subst hxr
      apply mul_nonneg _ (by norm_num)
      exact div_nonneg (by linarith) (le_of_lt hden)
    · subst hxr
      have hq : (r - qmin f) / (qmax f - qmin f + 1 / 1000000) ≤ 1 := by
        rw [div_le_one hden]; linarith
      have hq0 : 0 ≤ (r - qmin f) / (qmax f - qmin f + 1 / 1000000) :=
        div_nonneg (by linarith) (le_of_lt hden)
      nlinarith
  · intro hzero x hx
    rcases key x hx with ⟨r, hr, hxr⟩
    have h1 : qmin f ≤ r := qmin_le f r hr
    have h2 : r ≤ qmax f := le_qmax f r hr
    have : r = qmin f := by rw [hzero] at h2; linarith
    rw [hxr, this]
    simp

/-- Witness for C1 at the uniform batch `[some 5, some 5]`: its risk values
are 0 and satisfy the bounds. -/
theorem migration_risk_range_uniform_zero_witness :
    (0 ≤ (0 : ℚ) ∧ (0 : ℚ) ≤ 100) ∧ (0 : ℚ) = 0 :=
  ⟨(migration_risk_range_uniform_zero [some 5, some 5]).1 0
      (by simp [migRisk, qmax, qmin]),
   (migration_risk_range_uniform_zero [some 5, some 5]).2
      (by simp [qmax, qmin]) 0 (by simp [migRisk, qmax, qmin])⟩

/-- Counterexample for C1 as stated: on the zero-variance batch
`[some 5, some 5]` the code produces `[0, 0]`, not the claimed uniform 50. -/
theorem migration_risk_uniform_not_fifty :
    migRisk [some 5, some 5] ≠ [50, 50] := by
  intro h
  have h0 : migRisk [some 5, some 5] = [0, 0] := by simp [migRisk, qmax, qmin]
  rw [h0] at h
  have : (0 : ℚ) = 50 := by injection h
  norm_num at this

/-! ## C2 -/

theorem age_score_bounds (ag : Option String) :
    0 ≤ age_vulnerability_score ag ∧ age_vulnerability_score ag ≤ 1 := by
  unfold age_vulnerability_score
  split <;> norm_num

theorem mem_presentVals {col : List (Option ℚ)} {v : ℚ} (h : some v ∈ col) :
    v ∈ presentVals col :=
  List.mem_filterMap.mpr ⟨some v, h, rfl⟩

theorem geo_bounds (col : List (Option ℚ)) (x : Option ℚ) (hx : x ∈ col) :
    0 ≤ geo_vulnerability col x ∧ geo_vulnerability col x ≤ 1 := by
  cases x with
  | none => norm_num [geo_vulnerability]
  | some v =>
    have hv : v ∈ presentVals col := mem_presentVals hx
    have h1 : qmin (presentVals col) ≤ v := qmin_le _ v hv
    have h2 : v ≤ qmax (presentVals col) := le_qmax _ v hv
    have hden : (0 : ℚ) <
        qmax (presentVals col) - qmin (presentVals col) + 1 / 1000000 := by
      have : (0 : ℚ) ≤ qmax (presentVals col) - qmin (presentVals col) := by linarith
      linarith
    constructor
    · show 0 ≤ (qmax (presentVals col) - v) /
          (qmax (presentVals col) - qmin (presentVals col) + 1 / 1000000)
      exact div_nonneg (by linarith) (le_of_lt hden)
    · show (qmax (presentVals col) - v) /
          (qmax (presentVals col) - qmin (presentVals col) + 1 / 1000000) ≤ 1
      rw [div_le_one hden]; linarith

theorem bio_bounds (col : List (Option ℚ)) (x : Option ℚ) (hx : x ∈ col)
    (hpos : ∀ v ∈ presentVals col, 0 ≤ v) :
    0 ≤ bio_vulnerability col x ∧ bio_vulnerability col x ≤ 1 := by
  cases x with
  | none => norm_num [bio_vulnerability]
  | some v =>
    have hv : v ∈ presentVals col := mem_presentVals hx
    have h0 : 0 ≤ v := hpos v hv
    have h2 : v ≤ qmax (presentVals col) := le_qmax _ v hv
    have hden : (0 : ℚ) < qmax (presentVals col) + 1 / 1000000 := by linarith
    have hq0 : 0 ≤ v / (qmax (presentVals col) + 1 / 1000000) :=
      div_nonneg h0 (le_of_lt hden)
    have hq1 : v / (qmax (presentVals col) + 1 / 1000000) ≤ 1 := by
      rw [div_le_one hden]; linarith
    constructor
    · show 0 ≤ 1 - v / (qmax (presentVals col) + 1 / 1000000); linarith
    · show 1 - v / (qmax (presentVals col) + 1 / 1000000) ≤ 1; linarith

theorem mig_bounds (col : List (Option ℚ)) (x : Option ℚ) (hx : x ∈ col)
    (hpos : ∀ v ∈ presentVals col, 0 ≤ v) :
    0 ≤ mig_vulnerability col x ∧ mig_vulnerability col x ≤ 1 := by
  cases x with
  | none => norm_num [mig_vulnerability]
  | some v =>
    have hv : v ∈ presentVals col := mem_presentVals hx
    have h0 : 0 ≤ v := hpos v hv
    have h2 : v ≤ qmax (presentVals col) := le_qmax _ v hv
    have hden : (0 : ℚ) < qmax (presentVals col) + 1 / 1000000 := by linarith
    constructor
    · exact div_nonneg h0 (le_of_lt hden)
    · show v / (qmax (presentVals col) + 1 / 1000000) ≤ 1
      rw [div_le_one hden]; linarith

/-- C2: for every input row set whose biometric and demographic update counts
are non-negative, every `Vulnerability_Score` computed by
`calculate_vulnerability_score` lies in [0,100] and equals the weighted sum
(weights 0.4 / 0.3 / 0.2 / 0.1) of only the sub-scores whose source columns
are present; in particular when only the age column is present the score is
exactly `ageScore * 0.4`, so a `Child (0-5)` row scores `1.0 * 0.4 = 0.4`. -/
theorem vulnerability_score_weighted_present (df : VulnDf) :
    ((∀ r ∈ df.rows, 0 ≤ r.bioUpdates.getD 0) →
     (∀ r ∈ df.rows, 0 ≤ r.demoUpdates.getD 0) →
      ∀ s ∈ calculate_vulnerability_score df, 0 ≤ s ∧ s ≤ 100) ∧
    (df.hasEnrolCount = false → df.hasBioUpdates = false →
      df.hasDemoUpdates = false → df.hasAgeGroup = true →
      calculate_vulnerability_score df =
        df.rows.map (fun r => age_vulnerability_score r.ageGroup * (2 / 5))) := by
  constructor
  · intro hb hd s hs
    rcases List.mem_map.mp hs with ⟨r, hr, hsr⟩
    have hbcol : ∀ v ∈ presentVals (df.rows.map (fun q => q.bioUpdates)), 0 ≤ v := by
      intro v hv
      rcases List.mem_filterMap.mp hv with ⟨o, ho, hov⟩
      rcases List.mem_map.mp ho with ⟨q, hq, hqo⟩
      have hqv : q.bioUpdates = some v := hqo.trans hov
      have h := hb q hq
      rw [hqv] at h
      simpa using h
    have hdcol : ∀ v ∈ presentVals (df.rows.map (fun q => q.demoUpdates)), 0 ≤ v := by
      intro v hv
      rcases List.mem_filterMap.mp hv with ⟨o, ho, hov⟩
      rcases List.mem_map.mp ho with ⟨q, hq, hqo⟩
      have hqv : q.demoUpdates = some v := hqo.trans hov
      have h := hd q hq
      rw [hqv] at h
      simpa using h
    have ha1 := age_score_bounds r.ageGroup
    have hg := geo_bounds (df.rows.map (fun q => q.enrolCount)) r.enrolCount
        (List.mem_map.mpr ⟨r, hr, rfl⟩)
    have hbi := bio_bounds (df.rows.map (fun q => q.bioUpdates)) r.bioUpdates
        (List.mem_map.mpr ⟨r, hr, rfl⟩) hbcol
    have hmi := mig_bounds (df.rows.map (fun q => q.demoUpdates)) r.demoUpdates
        (List.mem_map.mpr ⟨r, hr, rfl⟩) hdcol
    have t1b : 0 ≤ (if df.hasAgeGroup then
          age_vulnerability_score r.ageGroup * (2 / 5) else 0) ∧
        (if df.hasAgeGroup then
          age_vulnerability_score r.ageGroup * (2 / 5) else 0) ≤ 2 / 5 := by
      split
      · refine ⟨mul_nonneg ha1.1 (by norm_num), ?_⟩
        calc age_vulnerability_score r.ageGroup * (2 / 5) ≤ 1 * (2 / 5) :=
              mul_le_mul_of_nonneg_right ha1.2 (by norm_num)
          _ = 2 / 5 := one_mul _
      · norm_num
    have t2b : 0 ≤ (if df.hasState && df.hasEnrolCount then
          geo_vulnerability (df.rows.map (fun q => q.enrolCount)) r.enrolCount * (3 / 10)
        else 0) ∧
        (if df.hasState && df.hasEnrolCount then
          geo_vulnerability (df.rows.map (fun q => q.enrolCount)) r.enrolCount * (3 / 10)
        else 0) ≤ 3 / 10 := by
      split
      · refine ⟨mul_nonneg hg.1 (by norm_num), ?_⟩
        calc geo_vulnerability (df.rows.map (fun q => q.enrolCount)) r.enrolCount
              * (3 / 10) ≤ 1 * (3 / 10) :=
              mul_le_mul_of_nonneg_right hg.2 (by norm_num)
          _ = 3 / 10 := one_mul _
      · norm_num
    have t3b : 0 ≤ (if df.hasBioUpdates then
          bio_vulnerability (df.rows.map (fun q => q.bioUpdates)) r.bioUpdates * (1 / 5)
        else 0) ∧
        (if df.hasBioUpdates then
          bio_vulnerability (df.rows.map (fun q => q.bioUpdates)) r.bioUpdates * (1 / 5)
        else 0) ≤ 1 / 5 := by
      split
      · refine ⟨mul_nonneg hbi.1 (by norm_num), ?_⟩
        calc bio_vulnerability (df.rows.map (fun q => q.bioUpdates)) r.bioUpdates
              * (1 / 5) ≤ 1 * (1 / 5) :=
              mul_le_mul_of_nonneg_right hbi.2 (by norm_num)
          _ = 1 / 5 := one_mul _
      · norm_num
    have t4b : 0 ≤ (if df.hasDemoUpdates then
          mig_vulnerability (df.rows.map (fun q => q.demoUpdates)) r.demoUpdates * (1 / 10)
        else 0) ∧
        (if df.hasDemoUpdates then
          mig_vulnerability (df.rows.map (fun q => q.demoUpdates)) r.demoUpdates * (1 / 10)
        else 0) ≤ 1 / 10 := by
      split
      · refine ⟨mul_nonneg hmi.1 (by norm_num), ?_⟩
        calc mig_vulnerability (df.rows.map (fun q => q.demoUpdates)) r.demoUpdates
              * (1 / 10) ≤ 1 * (1 / 10) :=
              mul_le_mul_of_nonneg_right hmi.2 (by norm_num)
          _ = 1 / 10 := one_mul _
      · norm_num
    rw [← hsr]
    exact ⟨by linarith [t1b.1, t2b.1, t3b.1, t4b.1],
           by linarith [t1b.2, t2b.2, t3b.2, t4b.2]⟩
  · intro hE hB hD hA
    simp [calculate_vulnerability_score, hE, hB, hD, hA]

/-- Witness for C2 at the scenario input: a single `Child (0-5)` row with only
the age column present scores exactly `0.4 = 2/5`, which is within bounds. -/
theorem vulnerability_score_weighted_present_witness :
    (0 ≤ (2 / 5 : ℚ) ∧ (2 / 5 : ℚ) ≤ 100) ∧
    calculate_vulnerability_score
      ⟨true, false, false, false, false, [⟨some "Child (0-5)", none, none, none⟩]⟩ =
      ([⟨some "Child (0-5)", none, none, none⟩] : List VulnRow).map
        (fun r => age_vulnerability_score r.ageGroup * (2 / 5)) := by
  constructor
  · exact (vulnerability_score_weighted_present
        ⟨true, false, false, false, false,
          [⟨some "Child (0-5)", none, none, none⟩]⟩).1
      (by simp) (by simp) (2 / 5)
      (by simp [calculate_vulnerability_score, age_vulnerability_score])
  · exact (vulnerability_score_weighted_present
        ⟨true, false, false, false, false,
          [⟨some "Child (0-5)", none, none, none⟩]⟩).2 rfl rfl rfl rfl

/-! ## C6 -/

theorem zip_mask_eq_filter (f : List ℚ) (p : ℚ → Bool) :
    (f.zip (f.map p)).filterMap (fun q => if q.2 then some q.1 else none) =
      f.filter p := by
  induction f with
  | nil => rfl
  | cons x xs ih =>
    by_cases h : p x <;> simp [List.filter_cons, h, ih]

/-- C6 (amended): `identify_anomalies` flags exactly the rows of the column
whose squared deviation from the population mean exceeds `threshold^2` times
the population variance (the square-root-free form of `|z| > threshold`, with
nulls replaced by 0); on the values `[1,1,1,1,100]` with threshold 2.5 no row
is flagged — the z-score of the value 100 is exactly 2.0 — while with
threshold 1.5, for instance, exactly the row with value 100 is flagged. -/
theorem anomaly_filter_characterization :
    (∀ (col : List (Option ℚ)) (t : ℚ),
      identify_anomalies col t =
        (col.map (fun v => v.getD 0)).filter
          (zFlag (col.map (fun v => v.getD 0)) t)) ∧
    identify_anomalies [some 1, some 1, some 1, some 1, some 100] (5 / 2) = [] ∧
    identify_anomalies [some 1, some 1, some 1, some 1, some 100] (3 / 2) = [100] := by
  refine ⟨fun col t => zip_mask_eq_filter _ _, ?_, ?_⟩
  · norm_num [identify_anomalies, zFlag, zMean, zVar, List.filterMap]
  · norm_num [identify_anomalies, zFlag, zMean, zVar, List.filterMap]

/-- Counterexample for C6 as stated: on `[1,1,1,1,100]` with threshold 2.5 the
code does not flag the row with value 100 (it flags nothing, since that row's
z-score is exactly 2.0 < 2.5). -/
theorem anomaly_scenario_not_flagged :
    identify_anomalies [some 1, some 1, some 1, some 1, some 100] (5 / 2) ≠
      [100] := by
  have h : identify_anomalies [some 1, some 1, some 1, some 1, some 100] (5 / 2)
      = [] := by
    norm_num [identify_anomalies, zFlag, zMean, zVar, List.filterMap]
  rw [h]
  simp

/-! ## C7 -/

/-- C7: every `Biometric_Coverage` value produced by
`calculate_biometric_quality` is a well-defined finite rational: its
denominator `Individuals_Updated + 1e-6` is strictly positive (the count of a
group is a natural number, so the `1e-6` guard keeps it away from zero), and
the value satisfies `Coverage * (Individuals + 1e-6) = Total * 100`, i.e. it
is the genuine quotient, never NaN or infinite — including when
`Individuals_Updated = 0`, where it is a large finite number. -/
theorem biometric_coverage_finite (b : Bool) (rows : List BioRow)
    (g : BioHealth) (hg : g ∈ calculate_biometric_quality b rows) :
    0 < (g.individuals : ℚ) + 1 / 1000000 ∧
    g.coverage * ((g.individuals : ℚ) + 1 / 1000000) = g.total * 100 := by
  cases b with
  | false => simp [calculate_biometric_quality] at hg
  | true =>
    simp only [calculate_biometric_quality, if_pos] at hg
    rcases List.mem_map.mp hg with ⟨s, _, hgs⟩
    subst hgs
    have hnn : (0 : ℚ) ≤
        (((rows.filter (fun r => r.state == some s)).filterMap
          (fun r => r.ageGroup)).length : ℚ) := Nat.cast_nonneg _
    have hpos : (0 : ℚ) <
        (((rows.filter (fun r => r.state == some s)).filterMap
          (fun r => r.ageGroup)).length : ℚ) + 1 / 1000000 := by linarith
    refine ⟨hpos, ?_⟩
    show ((rows.filter (fun r => r.state == some s)).filterMap
        (fun r => r.updateCount)).sum /
      ((((rows.filter (fun r => r.state == some s)).filterMap
        (fun r => r.ageGroup)).length : ℚ) + 1 / 1000000) * 100 *
      ((((rows.filter (fun r => r.state == some s)).filterMap
        (fun r => r.ageGroup)).length : ℚ) + 1 / 1000000) =
      ((rows.filter (fun r => r.state == some s)).filterMap
        (fun r => r.updateCount)).sum * 100
    field_simp
    ring

/-- Witness for C7 at the scenario input: one row for state "A" with
`Update_Count = 50` and a null `Age_Group`, so the group has `Total = 50` and
`Individuals = 0`; the coverage comes out as the large finite number
`5000000000` via the ε-guard. -/
theorem biometric_coverage_finite_witness :
    0 < ((0 : ℕ) : ℚ) + 1 / 1000000 ∧
    (5000000000 : ℚ) * (((0 : ℕ) : ℚ) + 1 / 1000000) = 50 * 100 :=
  biometric_coverage_finite true [⟨some "A", some 50, none⟩]
    ⟨"A", 50, some 50, 0, 5000000000⟩
    (by simp [calculate_biometric_quality, bioGroup, dedupFirst, dedupAux]
        norm_num)

/-! ## C8 -/

theorem mem_dedupAux {α : Type} [DecidableEq α] (l : List α) :
    ∀ (seen : List α) (a : α), a ∈ dedupAux seen l ↔ a ∈ l ∧ a ∉ seen := by
  induction l with
  | nil => intro seen a; simp [dedupAux]
  | cons x xs ih =>
    intro seen a
    by_cases hx : x ∈ seen
    · rw [dedupAux, if_pos hx, ih]
      constructor
      · rintro ⟨h1, h2⟩
        exact ⟨List.mem_cons_of_mem x h1, h2⟩
      · rintro ⟨h1, h2⟩
        rcases List.mem_cons.mp h1 with h | h
        · subst h; exact absurd hx h2
        · exact ⟨h, h2⟩
    · rw [dedupAux, if_neg hx]
      constructor
      · intro h
        rcases List.mem_cons.mp h with h | h
        · subst h; exact ⟨List.mem_cons_self a xs, hx⟩
        · rcases (ih (x :: seen) a).mp h with ⟨h1, h2⟩
          exact ⟨List.mem_cons_of_mem x h1,
            fun hs => h2 (List.mem_cons_of_mem x hs)⟩
      · rintro ⟨h1, h2⟩
        rcases List.mem_cons.mp h1 with h | h
        · subst h; exact List.mem_cons_self a _
        · by_cases hax : a = x
          · subst hax; exact List.mem_cons_self a _
          · exact List.mem_cons_of_mem x ((ih (x :: seen) a).mpr
              ⟨h, by simp [hax, h2]⟩)

theorem dedupAux_nodup {α : Type} [DecidableEq α] (l : List α) :
    ∀ seen : List α, (dedupAux seen l).Nodup := by
  induction l with
  | nil => intro seen; simp [dedupAux]
  | cons x xs ih =>
    intro seen
    by_cases hx : x ∈ seen
    · rw [dedupAux, if_pos hx]; exact ih seen
    · rw [dedupAux, if_neg hx]
      refine List.nodup_cons.mpr ⟨?_, ih (x :: seen)⟩
      intro hmem
      exact ((mem_dedupAux xs (x :: seen) x).mp hmem).2 (List.mem_cons_self x seen)

theorem dedupFirst_nodup {α : Type} [DecidableEq α] (l : List α) :
    (dedupFirst l).Nodup := dedupAux_nodup l []

theorem filterMap_some_id {α : Type} (f : α → Option α) (l : List α)
    (h : ∀ a ∈ l, f a = some a) : l.filterMap f = l := by
  induction l with
  | nil => rfl
  | cons x xs ih =>
    rw [List.filterMap_cons_some (h x (List.mem_cons_self x xs)),
      ih (fun a ha => h a (List.mem_cons_of_mem x ha))]

theorem mem_dedupFirst {α : Type} [DecidableEq α] (l : List α) (a : α) :
    a ∈ dedupFirst l ↔ a ∈ l := by
  rw [dedupFirst, mem_dedupAux]
  simp

/-- C8: `aggregate_by_state_district` returns its input unchanged when the
`State` or `District` column is absent (no exception; the warning log is not
modelled); when both key columns are present it returns one row per distinct
non-null (State, District) key — the output keys are duplicate-free and are
exactly the input keys — and each output row carries the sum of the value
column over its group. -/
theorem aggregate_passthrough_or_group (t : AggTable) :
    ((t.hasState && t.hasDistrict) = false → aggregate_by_state_district t = t) ∧
    ((t.hasState && t.hasDistrict) = true →
      (keysOf (aggregate_by_state_district t).rows).Nodup ∧
      (∀ k, k ∈ keysOf (aggregate_by_state_district t).rows ↔ k ∈ keysOf t.rows) ∧
      (∀ r ∈ (aggregate_by_state_district t).rows,
        r.value = some (groupSum t.rows (r.state.getD "", r.district.getD "")))) := by
  constructor
  · intro h
    simp [aggregate_by_state_district, h]
  · intro h
    have hrows : (aggregate_by_state_district t).rows =
        (dedupFirst (keysOf t.rows)).map (fun k =>
          { state := some k.1, district := some k.2
          , value := some (groupSum t.rows k) }) := by
      simp [aggregate_by_state_district, h]
    have hkeys : keysOf (aggregate_by_state_district t).rows =
        dedupFirst (keysOf t.rows) := by
      rw [hrows, keysOf, List.filterMap_map]
      exact filterMap_some_id _ _ (fun k _ => rfl)
    refine ⟨?_, ?_, ?_⟩
    · rw [hkeys]; exact dedupFirst_nodup _
    · intro k; rw [hkeys, mem_dedupFirst]
    · intro r hr
      rw [hrows] at hr
      rcases List.mem_map.mp hr with ⟨k, _, hk⟩
      subst hk
      rfl

/-- Witness for C8: a table missing the `State` column passes through
unchanged, and a two-row table with both keys present aggregates to
duplicate-free keys. -/
theorem aggregate_passthrough_or_group_witness :
    aggregate_by_state_district ⟨false, true, [⟨some "A", some "X", some 5⟩]⟩ =
      ⟨false, true, [⟨some "A", some "X", some 5⟩]⟩ ∧
    (keysOf (aggregate_by_state_district
      ⟨true, true, [⟨some "A", some "X", some 5⟩,
        ⟨some "A", some "X", some 7⟩]⟩).rows).Nodup :=
  ⟨(aggregate_passthrough_or_group
      ⟨false, true, [⟨some "A", some "X", some 5⟩]⟩).1 rfl,
   ((aggregate_passthrough_or_group
      ⟨true, true, [⟨some "A", some "X", some 5⟩,
        ⟨some "A", some "X", some 7⟩]⟩).2 rfl).1⟩

/-! ## C9 -/

/-- C9 (amended): when the external model throws, neither adapter propagates
the exception; the isolation-forest adapter returns the all-normal label
vector (all ones), while `cluster_regions` returns its input frame unchanged,
i.e. with no `Cluster` column attached — not an all-cluster-0 assignment. -/
theorem adapter_failure_defaults
    (mA : List (List ℚ) → Except String (List ℤ))
    (mC : List (List ℚ) → Except String (List ℕ))
    (x : List (List (Option ℚ))) (df : RegionTable) (eA eC : String)
    (hA : mA (fillMatrix x) = Except.error eA)
    (hC : mC (fillMatrix df.rows) = Except.error eC) :
    detect_isolation_forest mA x = List.replicate x.length 1 ∧
    cluster_regions mC df = df := by
  constructor
  · simp [detect_isolation_forest, hA]
  · simp [cluster_regions, hC]

/-- Witness for C9: concrete always-failing models on small frames give the
all-ones labels and the unchanged frame. -/
theorem adapter_failure_defaults_witness :
    detect_isolation_forest (fun _ => Except.error "singular matrix")
      [[some 1], [none]] = List.replicate 2 1 ∧
    cluster_regions (fun _ => Except.error "fit failed")
      ⟨[[some 1], [some 2]], none⟩ = ⟨[[some 1], [some 2]], none⟩ :=
  adapter_failure_defaults (fun _ => Except.error "singular matrix")
    (fun _ => Except.error "fit failed") [[some 1], [none]]
    ⟨[[some 1], [some 2]], none⟩ "singular matrix" "fit failed" rfl rfl

/-- Counterexample for C9 as stated: on failure the clustering adapter does
not produce the all-cluster-0 assignment; it returns the input frame with no
`Cluster` column at all. -/
theorem cluster_failure_not_zero_labels :
    (cluster_regions (fun _ => Except.error "fit failed")
      ⟨[[some 1], [some 2]], none⟩).cluster ≠ some [0, 0] := by
  simp [cluster_regions]

/-! ## C3 and C10 -/

theorem zipWith_map_same {α β γ : Type} (f : α → β → γ) (h : α → β) :
    ∀ l : List α, List.zipWith f l (l.map h) = l.map (fun a => f a (h a)) := by
  intro l
  induction l with
  | nil => rfl
  | cons x xs ih => simp [ih]

theorem migRisk_map {α : Type} (g : α → Option ℚ) (l : List α) :
    migRisk (l.map g) = l.map (fun a =>
      ((g a).getD 0 - qmin ((l.map g).map (fun v => v.getD 0))) /
      (qmax ((l.map g).map (fun v => v.getD 0)) -
        qmin ((l.map g).map (fun v => v.getD 0)) + 1 / 1000000) * 100) := by
  simp only [migRisk, List.map_map]
  rfl

/-- C3 (amended): in the migration merge, an enrolment row with no matching
(State, District, Pin Code) in the demographic data yields an output row with
a null `Updates` value and a null `Update_Rate` (NaN, not 0): the null
propagates through the rate arithmetic.  The null rate counts as 0 only
downstream, inside the `Migration_Risk` computation, which null-fills the
rate column before normalizing. -/
theorem merge_unmatched_null_update_rate (ecols dcols : List String)
    (erows : List ERow) (drows : List DRow) (e : ERow)
    (hguard : ((mergedColumns ecols dcols).contains "Aadhaar Generated_enrol" &&
      (mergedColumns ecols dcols).contains "Update_count") = true)
    (he : e ∈ erows)
    (hnm : ∀ d ∈ drows, (d.state == e.state && d.district == e.district &&
      d.pin == e.pin) = false) :
    ∃ rows, calculate_migration_indicators ecols dcols erows drows = some rows ∧
      ∃ r, { state := e.state, district := e.district, enrolment := e.gen
           , updates := none, update_rate := none, risk := r : MigRow } ∈ rows := by
  rw [calculate_migration_indicators, if_pos hguard]
  refine ⟨_, rfl, ?_⟩
  rw [migRisk_map, zipWith_map_same]
  have hpair : (e, (none : Option ℚ)) ∈ joinPairs erows drows := by
    rw [joinPairs]
    apply List.mem_flatMap.mpr
    refine ⟨e, he, ?_⟩
    have hms : drows.filter (fun d =>
        d.state == e.state && d.district == e.district && d.pin == e.pin) = [] :=
      List.filter_eq_nil_iff.mpr (fun d hd => by simp [hnm d hd])
    simp [hms]
  exact ⟨_, List.mem_map.mpr ⟨(e, none), hpair, rfl⟩⟩

/-- Witness for C3: a one-row enrolment frame with no demographic rows (the
merged columns do contain both required names, since `Aadhaar Generated`
occurs on both sides and gets suffixed) yields the null-rate row. -/
theorem merge_unmatched_null_update_rate_witness :
    ∃ rows, calculate_migration_indicators
        ["State", "District", "Pin Code", "Aadhaar Generated"]
        ["State", "District", "Pin Code", "Aadhaar Generated", "Update_count"]
        [⟨"A", "X", 1, some 100⟩] [] = some rows ∧
      ∃ r, { state := "A", district := "X", enrolment := some 100
           , updates := none, update_rate := none, risk := r : MigRow } ∈ rows :=
  merge_unmatched_null_update_rate _ _ _ _ ⟨"A", "X", 1, some 100⟩
    (by rfl) (List.mem_singleton.mpr rfl) (fun d hd => absurd hd (List.not_mem_nil d))

/-- Counterexample for C3 as stated: for an enrolment row with no demographic
match the produced `Update_Rate` is null, not the defined value 0 the claim
asserts. -/
theorem merge_unmatched_rate_not_zero :
    ((calculate_migration_indicators
        ["State", "District", "Pin Code", "Aadhaar Generated"]
        ["State", "District", "Pin Code", "Aadhaar Generated", "Update_count"]
        [⟨"A", "X", 1, some 100⟩] []).getD []).map (fun r => r.update_rate) =
      [none] ∧ (none : Option ℚ) ≠ some 0 := by
  constructor
  · rfl
  · simp

/-- C10: when the merged enrolment/demographic frame lacks the column
`Aadhaar Generated_enrol` or the column `Update_count`,
`calculate_migration_indicators` returns the entirely empty frame (no rows,
no columns — modelled by `none`) without raising an error. -/
theorem migration_missing_columns_empty (ecols dcols : List String)
    (erows : List ERow) (drows : List DRow)
    (h : ((mergedColumns ecols dcols).contains "Aadhaar Generated_enrol" &&
      (mergedColumns ecols dcols).contains "Update_count") = false) :
    calculate_migration_indicators ecols dcols erows drows = none := by
  simp only [calculate_migration_indicators, h]
  rfl

/-- Witness for C10: when only the enrolment side has `Aadhaar Generated`,
the merge leaves it unsuffixed, so `Aadhaar Generated_enrol` is absent and
the function returns the empty frame. -/
theorem migration_missing_columns_empty_witness :
    calculate_migration_indicators
      ["State", "District", "Pin Code", "Aadhaar Generated"]
      ["State", "District", "Pin Code", "Update_count"]
      [⟨"A", "X", 1, some 100⟩] [⟨"A", "X", 1, some 3⟩] = none :=
  migration_missing_columns_empty _ _ _ _ (by rfl)

/-! ## C4 and C5 -/

theorem map_id_of_mem {α : Type} (l : List α) (f : α → α)
    (h : ∀ x ∈ l, f x = x) : l.map f = l := by
  induction l with
  | nil => rfl
  | cons x xs ih =>
    rw [List.map_cons, h x (List.mem_cons_self x xs),
      ih (fun a ha => h a (List.mem_cons_of_mem x ha))]

theorem ffillAux_of_no_null (cs : List Cell) :
    ∀ carry, (∀ x ∈ cs, x ≠ Cell.null) → ffillAux carry cs = cs := by
  induction cs with
  | nil => intro carry _; rfl
  | cons c cs ih =>
    intro carry h
    cases c with
    | null => exact absurd rfl (h Cell.null (List.mem_cons_self _ _))
    | num q =>
      show Cell.num q :: ffillAux (some (Cell.num q)) cs = Cell.num q :: cs
      rw [ih _ (fun x hx => h x (List.mem_cons_of_mem _ hx))]
    | str s =>
      show Cell.str s :: ffillAux (some (Cell.str s)) cs = Cell.str s :: cs
      rw [ih _ (fun x hx => h x (List.mem_cons_of_mem _ hx))]
    | date d =>
      show Cell.date d :: ffillAux (some (Cell.date d)) cs = Cell.date d :: cs
      rw [ih _ (fun x hx => h x (List.mem_cons_of_mem _ hx))]

theorem fillCol_of_no_null (c : Col) (h : ∀ x ∈ c.cells, x ≠ Cell.null) :
    fillCol c = c := by
  have h1 : ffillCells c.cells = c.cells := ffillAux_of_no_null _ none h
  have h2 : bfillCells c.cells = c.cells := by
    rw [bfillCells,
      ffillAux_of_no_null _ none (fun x hx => h x (List.mem_reverse.mp hx)),
      List.reverse_reverse]
  rw [fillCol, h1, h2]

theorem dateConvCol_name (c : Col) : (dateConvCol c).name = c.name := by
  rw [dateConvCol]; split <;> rfl

theorem coerceCol_name (c : Col) : (coerceCol c).name = c.name := by
  rw [coerceCol]; split <;> rfl

theorem dateOK_dateConvCol (c : Col) : dateOK (dateConvCol c) := by
  by_cases hd : isDateName c.name = true
  · rw [dateConvCol, if_pos hd]
    intro _
    refine ⟨rfl, ?_⟩
    intro x hx
    rcases List.mem_map.mp hx with ⟨y, _, hyx⟩
    subst hyx
    cases y with
    | null => exact Or.inl rfl
    | num q => exact Or.inr ⟨q, rfl⟩
    | str s =>
      cases hp : parseDate s with
      | none => exact Or.inl (by simp [toDateCell, hp])
      | some d => exact Or.inr ⟨d, by simp [toDateCell, hp]⟩
    | date d => exact Or.inr ⟨d, rfl⟩
  · rw [dateConvCol, if_neg hd]
    intro hc
    exact absurd hc hd

theorem maskFilter_mem (ms : List Bool) :
    ∀ (cs : List Cell), ∀ x ∈ maskFilter ms cs, x ∈ cs := by
  induction ms with
  | nil => intro cs x hx; rw [maskFilter] at hx; cases hx
  | cons b ms ih =>
    intro cs x hx
    cases cs with
    | nil => rw [maskFilter] at hx; cases hx
    | cons c cs =>
      rw [maskFilter] at hx
      split at hx
      · rcases List.mem_cons.mp hx with h | h
        · exact h ▸ List.mem_cons_self c cs
        · exact List.mem_cons_of_mem c (ih cs x h)
      · exact List.mem_cons_of_mem c (ih cs x hx)

theorem dedupTable_shape (t : Table) :
    ∀ c2 ∈ dedupTable t, ∃ c ∈ t, c2.name = c.name ∧ c2.dtype = c.dtype ∧
      ∀ x ∈ c2.cells, x ∈ c.cells := by
  intro c2 h2
  rcases List.mem_map.mp h2 with ⟨c, hc, hcc⟩
  subst hcc
  exact ⟨c, hc, rfl, rfl, maskFilter_mem _ _⟩

theorem dateOK_of_shape {c2 c : Col} (hn : c2.name = c.name)
    (hd : c2.dtype = c.dtype) (hm : ∀ x ∈ c2.cells, x ∈ c.cells)
    (h : dateOK c) : dateOK c2 := by
  intro hname
  rw [hn] at hname
  rcases h hname with ⟨h1, h2⟩
  exact ⟨hd.trans h1, fun x hx => h2 x (hm x hx)⟩

theorem dateOK_coerceCol (c : Col) (h : dateOK c) : dateOK (coerceCol c) := by
  intro hname
  rw [coerceCol_name] at hname
  rcases h hname with ⟨hdt, hcells⟩
  rw [coerceCol, if_neg (by rw [hdt]; intro hcon; cases hcon)]
  exact ⟨hdt, hcells⟩

theorem dateOK_cleanData (b : Bool) (t : Table) :
    ∀ c ∈ cleanData b t, dateOK c := by
  have base : ∀ c3 ∈ dedupTable ((t.map fillCol).map dateConvCol), dateOK c3 := by
    intro c3 h3
    rcases dedupTable_shape _ c3 h3 with ⟨c4, hc4, hn, hd, hm⟩
    rcases List.mem_map.mp hc4 with ⟨c5, _, hc5⟩
    exact dateOK_of_shape hn hd hm (hc5 ▸ dateOK_dateConvCol c5)
  intro c hc
  cases b with
  | false => exact base c hc
  | true =>
    rcases List.mem_map.mp hc with ⟨c3, h3, hcc⟩
    exact hcc ▸ dateOK_coerceCol c3 (base c3 h3)

theorem no_object_cleanData (t : Table) :
    ∀ c ∈ cleanData true t, c.dtype ≠ Dtype.objectT := by
  intro c hc
  rcases List.mem_map.mp hc with ⟨c3, _, hcc⟩
  subst hcc
  rw [coerceCol]
  split
  next => exact fun h => Dtype.noConfusion h
  next hne => exact hne

theorem dateConvCol_id (c : Col) (hok : dateOK c)
    (hnn : ∀ x ∈ c.cells, x ≠ Cell.null) : dateConvCol c = c := by
  by_cases hd : isDateName c.name = true
  · rcases hok hd with ⟨hdt, hcells⟩
    rw [dateConvCol, if_pos hd]
    have hcid : c.cells.map toDateCell = c.cells := by
      apply map_id_of_mem
      intro x hx
      rcases hcells x hx with h | ⟨d, h⟩
      · exact absurd h (hnn x hx)
      · subst h; rfl
    rw [hcid, ← hdt]
  · rw [dateConvCol, if_neg hd]

theorem keepMask_nodup (rs : List (List Cell)) :
    ∀ seen, rs.Nodup → (∀ r ∈ rs, r ∉ seen) →
      keepMask seen rs = List.replicate rs.length true := by
  induction rs with
  | nil => intro seen _ _; rfl
  | cons r rs ih =>
    intro seen hnd hns
    rw [keepMask, if_neg (hns r (List.mem_cons_self r rs)),
      List.length_cons, List.replicate_succ]
    congr 1
    apply ih
    · exact hnd.of_cons
    · intro r2 hr2
      rw [List.mem_cons]
      rintro (h | h)
      · rcases List.nodup_cons.mp hnd with ⟨hr, _⟩
        exact hr (h ▸ hr2)
      · exact hns r2 (List.mem_cons_of_mem r hr2) h

theorem maskFilter_replicate (cs : List Cell) :
    maskFilter (List.replicate cs.length true) cs = cs := by
  induction cs with
  | nil => rfl
  | cons c cs ih =>
    rw [List.length_cons, List.replicate_succ, maskFilter, if_pos rfl, ih]

theorem rowsOf_length (t : Table) : (rowsOf t).length = heightT t := by
  rw [rowsOf, List.length_map, List.length_range]

theorem dedupTable_id (t : Table) (hwf : wfT t) (hnd : (rowsOf t).Nodup) :
    dedupTable t = t := by
  have hmask : keepMask [] (rowsOf t) = List.replicate (heightT t) true := by
    rw [keepMask_nodup (rowsOf t) [] hnd (fun r _ => List.not_mem_nil r),
      rowsOf_length]
  rw [dedupTable]
  apply map_id_of_mem
  intro c hc
  rw [hmask, ← hwf c hc, maskFilter_replicate]

/-- C4 (amended): cleaning is a fixed point on every rectangular dataset
whose once-cleaned form has no null cells and no duplicate rows; in general
re-running the cleaner can change an already-cleaned dataset, because date
parsing and numeric coercion run after the missing-value fill and can
introduce new nulls (and merge distinct raw values into equal cleaned ones),
which the second run then fills or deduplicates. -/
theorem clean_fixed_point_conditions (b : Bool) (t : Table)
    (hwf : wfT (cleanData b t)) (hnn : noNulls (cleanData b t))
    (hnd : (rowsOf (cleanData b t)).Nodup) :
    cleanData b (cleanData b t) = cleanData b t := by
  have hok : ∀ c ∈ cleanData b t, dateOK c := dateOK_cleanData b t
  have h1 : (cleanData b t).map fillCol = cleanData b t :=
    map_id_of_mem _ _ (fun c hc => fillCol_of_no_null c (hnn c hc))
  have h2 : ((cleanData b t).map fillCol).map dateConvCol = cleanData b t := by
    rw [h1]
    exact map_id_of_mem _ _ (fun c hc => dateConvCol_id c (hok c hc) (hnn c hc))
  have h3 : dedupTable (((cleanData b t).map fillCol).map dateConvCol) =
      cleanData b t := by
    rw [h2]
    exact dedupTable_id _ hwf hnd
  cases b with
  | false =>
    show dedupTable (((cleanData false t).map fillCol).map dateConvCol) =
      cleanData false t
    exact h3
  | true =>
    show (dedupTable (((cleanData true t).map fillCol).map dateConvCol)).map
      coerceCol = cleanData true t
    rw [h3]
    exact map_id_of_mem _ _ (fun c hc => by
      rw [coerceCol, if_neg (no_object_cleanData t c hc)])

/-- Witness for C4: a purely numeric dataset is cleaned to itself, and
cleaning it twice equals cleaning it once. -/
theorem clean_fixed_point_conditions_witness :
    cleanData true (cleanData true
      [⟨"val", Dtype.floatT, [Cell.num 1, Cell.num 2]⟩]) =
    cleanData true [⟨"val", Dtype.floatT, [Cell.num 1, Cell.num 2]⟩] :=
  clean_fixed_point_conditions true
    [⟨"val", Dtype.floatT, [Cell.num 1, Cell.num 2]⟩]
    (by decide) (by decide) (by decide)

/-- Counterexample for C4 as stated: a text "month" column with one
unparsable and one parsable date.  The first clean turns the unparsable cell
into a null after the fill step; the second clean back-fills that null and
then drops the now-duplicate row, so cleaning twice differs from cleaning
once. -/
theorem clean_not_idempotent :
    cleanData false (cleanData false
      [⟨"month", Dtype.objectT, [Cell.str "notadate", Cell.str "2020-01-05"]⟩]) ≠
    cleanData false
      [⟨"month", Dtype.objectT,
        [Cell.str "notadate", Cell.str "2020-01-05"]⟩] := by
  decide

/-- C5: the coercion step at the failing input.  `clean_enrolment_data`
applies `pd.to_numeric(..., errors='coerce')` to every object column, so the
text column `Name = ["abc"]` is retyped to numeric with its value turned into
null — it is not left unchanged as text, contradicting the claim (and the
source's own dead `try/except`, whose `except` branch shows the author
expected a failed conversion to leave the column alone). -/
theorem clean_coerces_text_to_null :
    cleanData true [⟨"Name", Dtype.objectT, [Cell.str "abc"]⟩] =
      [⟨"Name", Dtype.floatT, [Cell.null]⟩] := by
  decide

end UIDAI
